import Mathlib

/-!
Shallow embedding of the streaming-dashboard core of the crisisManagement
repository: the Dashboard ingestion path (src/components/Dashboard.tsx), the
useWebSocket data hook (src/hooks/useWebSocket.ts) and the performance monitor
(src/hooks/usePerformanceMonitor.ts), together with theorems settling the
frozen claims about windowing, baselines, deduplication, telemetry alerts,
reconnect behaviour and malformed-message handling.
-/

set_option maxRecDepth 200000

namespace Crisis

/-- Wire-level metric payload. Dashboard.tsx types the parsed message as
Omit of DataPoint without timestamp and id; a timestamp present on the wire
JSON is kept here as wireTimestamp so that the enrichment's overwrite of it
(spread followed by explicit timestamp field) is visible in the model. -/
structure RawPoint where
  siteId : String
  siteName : String
  pageViews : Nat
  wireTimestamp : Int
deriving DecidableEq

/-- DataPoint (Dashboard.tsx lines 14-19). The id field is the synthetic
Math.random() marker attached on receipt. -/
structure DataPoint where
  siteId : String
  siteName : String
  pageViews : Nat
  timestamp : Nat
  id : Nat
deriving DecidableEq

/-- MAX_POINTS (Dashboard.tsx line 27). -/
def MAX_POINTS : Nat := 200

/-- The onmessage enrichment (Dashboard.tsx lines 84-89): the parsed payload is
spread and then timestamp := Date.now() and id := Math.random() are written,
so any wire timestamp is discarded. The two nondeterministic environment
reads are explicit parameters now and rid. -/
def enrich (raw : RawPoint) (now : Nat) (rid : Nat) : DataPoint :=
  { siteId := raw.siteId, siteName := raw.siteName, pageViews := raw.pageViews,
    timestamp := now, id := rid }

/-- JS arr.slice(-n): the final min(n, length) elements of the array. -/
def sliceLast (l : List α) (n : Nat) : List α := l.drop (l.length - n)

/-- The setData functional update (Dashboard.tsx lines 92-98): append after
slice(-MAX_POINTS); return prev unchanged when the length is unchanged and the
last id matches (the "Optimized state updates" short-circuit). -/
def dataUpdater (prev : List DataPoint) (e : DataPoint) : List DataPoint :=
  let newArr := sliceLast prev MAX_POINTS ++ [e]
  if prev.length = newArr.length ∧
      prev.getLast?.map DataPoint.id = newArr.getLast?.map DataPoint.id
  then prev else newArr

/-- Site (Dashboard.tsx lines 21-25): per-site id, display name and retained
window. These are the only fields the source declares: there is no baseline
aggregate and no count of evicted events anywhere in the state. -/
structure Site where
  siteId : String
  siteName : String
  data : List DataPoint
deriving DecidableEq

/-- The per-site window transition inside the setSites updater (Dashboard.tsx
lines 113-124): append after slice(-MAX_POINTS); keep the old window when
the length is unchanged and the last id matches ("Only update if data
actually changed"). -/
def siteStep (old : List DataPoint) (e : DataPoint) : List DataPoint :=
  let upd := sliceLast old MAX_POINTS ++ [e]
  if old.length = upd.length ∧
      old.getLast?.map DataPoint.id = upd.getLast?.map DataPoint.id
  then old else upd

/-- The setSites functional update (Dashboard.tsx lines 100-126): findIndex on
siteId followed by copy-and-set at the found index, embedded as a first-match
recursion; index -1 appends a fresh Site holding just the new event. -/
def sitesUpdater : List Site → DataPoint → List Site
  | [], e => [{ siteId := e.siteId, siteName := e.siteName, data := [e] }]
  | s :: rest, e =>
    if s.siteId = e.siteId then { s with data := siteStep s.data e } :: rest
    else s :: sitesUpdater rest e

/-- One delivered metric message together with the environment reads made on
receipt: Date.now() and the fresh Math.random() id. -/
structure Msg where
  raw : RawPoint
  now : Nat
  rid : Nat
deriving DecidableEq

/-- The Dashboard component state touched by onmessage: the global data list
and the per-site series list. -/
structure DashState where
  data : List DataPoint
  sites : List Site
deriving DecidableEq

def emptyDash : DashState := { data := [], sites := [] }

/-- The whole onmessage handler body on a successfully parsed payload
(Dashboard.tsx lines 83-127). -/
def onmessage (st : DashState) (m : Msg) : DashState :=
  let e := enrich m.raw m.now m.rid
  { data := dataUpdater st.data e, sites := sitesUpdater st.sites e }

/-- Processing a whole delivery sequence from the initial empty state. -/
def runDash (msgs : List Msg) : DashState := msgs.foldl onmessage emptyDash

/-- The enrichment of one received message. -/
def enrichMsg (m : Msg) : DataPoint := enrich m.raw m.now m.rid

/-- The j-th generated message for site a: distinct consecutive ids, clocks
equal to the index. -/
def genMsg (j : Nat) : Msg :=
  { raw := { siteId := "a", siteName := "A", pageViews := j, wireTimestamp := 0 },
    now := j, rid := j }

/-- 201 messages for one site with distinct ids and non-decreasing clocks. -/
def c1msgs : List Msg := genMsg 0 :: (List.range' 1 200).map genMsg

/-- First of 202 messages for one site; its pageViews value v is the only
thing that varies between the two compared delivery sequences. -/
def c2first (v : Nat) : Msg :=
  { raw := { siteId := "a", siteName := "A", pageViews := v, wireTimestamp := 0 },
    now := 0, rid := 0 }

/-- The 201 further messages, identical in both sequences. -/
def c2rest : List Msg := (List.range' 1 201).map genMsg

/-- 202 messages for one site; only the first message's pageViews is the
parameter v, and that first event is the one evicted at the 202nd ingestion. -/
def c2msgs (v : Nat) : List Msg := c2first v :: c2rest

/-- A single message, used twice to model duplicate delivery of the same
enriched event (same synthetic id). -/
def c3m : Msg :=
  { raw := { siteId := "a", siteName := "A", pageViews := 5, wireTimestamp := 0 },
    now := 10, rid := 5 }

/-- PerformanceStats (usePerformanceMonitor.ts lines 3-9). latencyMs is an Int
because it is a JS subtraction of two clock readings. -/
structure PerformanceStats where
  fps : Nat
  memoryUsedMB : Nat
  memoryTotalMB : Nat
  latencyMs : Int
  alerts : List String
deriving DecidableEq

/-- Initial stats (usePerformanceMonitor.ts lines 14-20). -/
def initialStats : PerformanceStats :=
  { fps := 0, memoryUsedMB := 0, memoryTotalMB := 0, latencyMs := 0, alerts := [] }

/-- Character-list test: pat occurs at the start. -/
def chStarts : List Char → List Char → Bool
  | _, [] => true
  | [], _ :: _ => false
  | a :: as, b :: bs => a == b && chStarts as bs

/-- Character-list test: pat occurs somewhere. -/
def chContains : List Char → List Char → Bool
  | [], pat => pat.isEmpty
  | a :: rest, pat => chStarts (a :: rest) pat || chContains rest pat

/-- JS String.prototype.includes. -/
def jsIncludes (s pat : String) : Bool := chContains s.toList pat.toList

def lowFPSAlert : String := "⚠️ Low FPS"

def highMemAlert : String := "🚨 High Memory Usage"

def highLatencyAlert : String := "⚠️ High WebSocket Latency"

/-- The FPS tracker's setStats write (usePerformanceMonitor.ts lines 37-41): it
spreads prev for the numeric fields but rebuilds alerts from scratch, holding
only the FPS alert when fps is below 30. -/
def fpsUpdate (prev : PerformanceStats) (fps : Nat) : PerformanceStats :=
  { prev with fps := fps, alerts := if fps < 30 then [lowFPSAlert] else [] }

/-- Math.round(bytes / 1048576): round-half-up of the megabyte value,
floor((524288 + bytes) / 1048576). -/
def jsRoundMB (bytes : Nat) : Nat := (524288 + bytes) / 1048576

/-- The memory tracker's setStats write (usePerformanceMonitor.ts lines 53-66).
The alert is keyed on the unrounded used = bytes / 1048576 exceeding 400, that
is bytes > 400 * 1048576 = 419430400, while the reported memoryUsedMB is the
rounded value. Non-Memory alerts are kept by the filter. -/
def memUpdate (prev : PerformanceStats) (usedBytes totalBytes : Nat) : PerformanceStats :=
  { prev with
    memoryUsedMB := jsRoundMB usedBytes,
    memoryTotalMB := jsRoundMB totalBytes,
    alerts :=
      prev.alerts.filter (fun a => !(jsIncludes a "Memory")) ++
      (if 419430400 < usedBytes then [highMemAlert] else []) }

/-- The latency prober's mutable state: the stats plus the pending ping
timestamp ref latencyStart (null modelled as none). -/
structure MonitorState where
  stats : PerformanceStats
  latencyStart : Option Int
deriving DecidableEq

def monInit : MonitorState := { stats := initialStats, latencyStart := none }

/-- One firing of the 5 s ping interval (usePerformanceMonitor.ts lines 77-84):
if the socket is open, overwrite latencyStart with Date.now() and send the
ping (abandoning any previous outstanding stamp). -/
def pingTick (st : MonitorState) (now : Int) (wsOpen : Bool) : MonitorState :=
  if wsOpen then { st with latencyStart := some now } else st

/-- The pong branch of the monitor's onMessage (usePerformanceMonitor.ts lines
103-115). The guard is the JS truthiness of latencyStart.current, so a pending
stamp equal to 0 is treated exactly like null: the pong is ignored. Otherwise
latencyMs := now - stamp, non-Latency alerts are kept, the Latency alert is
asserted iff the computed latency exceeds 200, and the stamp is cleared. -/
def monPong (st : MonitorState) (now : Int) : MonitorState :=
  match st.latencyStart with
  | none => st
  | some t =>
    if t = 0 then st
    else
      { stats :=
          { st.stats with
            latencyMs := now - t,
            alerts :=
              st.stats.alerts.filter (fun a => !(jsIncludes a "Latency")) ++
              (if 200 < now - t then [highLatencyAlert] else []) },
        latencyStart := none }

/-- A message as seen by the monitor's listener: a pong (with the Date.now()
read at receipt), some other successfully parsed payload, or a payload on
which JSON.parse throws. -/
inductive MonWire where
  | pongMsgW (now : Int)
  | otherMsg
  | malformedMsg (payload : String)

/-- The monitor's whole onMessage handler (usePerformanceMonitor.ts lines
101-120): the body is wrapped in try/catch, so a parse failure is caught and
logged and the state is untouched; a parsed non-pong payload is a no-op. -/
def monitorOnMessage (st : MonitorState) (w : MonWire) : MonitorState :=
  match w with
  | .pongMsgW now => monPong st now
  | .otherMsg => st
  | .malformedMsg _ => st

/-- A message as seen by the data-path listeners, which parse it as a metric
payload: either JSON.parse succeeds, or it throws. -/
inductive DataWire where
  | point (raw : RawPoint)
  | malformed (payload : String)

/-- The Dashboard onmessage handler over the wire (Dashboard.tsx lines 83-127):
JSON.parse is unguarded, so a payload that fails to parse throws out of the
handler; the escaping exception is modelled as Except.error carrying the
offending payload. -/
def dashOnData (st : DashState) (w : DataWire) (now rid : Nat) : Except String DashState :=
  match w with
  | .point raw => Except.ok (onmessage st { raw := raw, now := now, rid := rid })
  | .malformed payload => Except.error payload

/-- The useWebSocket onmessage handler (useWebSocket.ts lines 10-14): the same
unguarded JSON.parse; on success the point is appended after slice(-999). The
parsed DataPoint type lives in src/types/DataPoint.ts which is not in the
sources; only the parse/crash behaviour and the slicing matter here, so the
payload is modelled by RawPoint. -/
def useWebSocketOnMessage (prev : List RawPoint) (w : DataWire) :
    Except String (List RawPoint) :=
  match w with
  | .point raw => Except.ok (sliceLast prev 999 ++ [raw])
  | .malformed payload => Except.error payload

/-- Connection-manager state (Dashboard.tsx lines 79-132): the fire times of
live setTimeout(connectWebSocket, 3000) reconnect timers, whether the current
socket's error event has already fired, and how many reconnect attempts
(connectWebSocket runs from a timer) have happened. -/
structure ConnState where
  timers : List Nat
  errored : Bool
  attempts : Nat
deriving DecidableEq

/-- Transport-level happenings: the current socket's error event (with the
clock at delivery), a close event, or a live reconnect timer firing. -/
inductive ConnEvent where
  | errorEv (now : Nat)
  | closeEv (now : Nat)
  | timerFire
deriving DecidableEq

/-- One event of the connection lifecycle (Dashboard.tsx lines 80, 129-132,
148-151). onerror schedules setTimeout(connectWebSocket, 3000); no onclose
handler is ever installed, so close events do nothing; a firing timer runs
connectWebSocket, which replaces wsRef.current with a fresh socket. Per the
WebSocket platform contract a given socket fires its error event at most once
(it is then closed), so an error delivered while the current socket has
already errored cannot occur and is modelled as a no-op. -/
def connStep (st : ConnState) (ev : ConnEvent) : ConnState :=
  match ev with
  | .errorEv now =>
    if st.errored then st
    else { st with errored := true, timers := st.timers ++ [now + 3000] }
  | .closeEv _ => st
  | .timerFire =>
    match st.timers with
    | [] => st
    | _ :: rest => { timers := rest, errored := false, attempts := st.attempts + 1 }

/-- State right after the mount effect's initial connectWebSocket call. -/
def connInit : ConnState := { timers := [], errored := false, attempts := 0 }

def runConn (evs : List ConnEvent) : ConnState := evs.foldl connStep connInit

/-- The enriched point produced by receiving c3m. -/
def dp0 : DataPoint :=
  { siteId := "a", siteName := "A", pageViews := 5, timestamp := 10, id := 5 }

/-- A later point with a fresh id. -/
def dpNew : DataPoint :=
  { siteId := "a", siteName := "A", pageViews := 6, timestamp := 11, id := 6 }

/-- A later point that reuses the id of dp0 (duplicate delivery). -/
def dupE : DataPoint :=
  { siteId := "a", siteName := "A", pageViews := 7, timestamp := 12, id := 5 }

/-- Stats carrying an active memory alert (used = about 477 MB). -/
def c5prev : PerformanceStats := memUpdate initialStats 500000000 600000000

/-- Stats carrying an active FPS alert. -/
def c5w : PerformanceStats := { initialStats with alerts := [lowFPSAlert] }

/-- Stats after a memory sample of 419430401 bytes: the unrounded megabyte
value just exceeds 400 while the rounded value is exactly 400. -/
def c6mem : PerformanceStats := memUpdate initialStats 419430401 419430401

/-- Three messages whose wire timestamps decrease (100, 50, 0) while the local
receipt clocks are non-decreasing (5, 7, 7). -/
def c10msgs : List Msg :=
  [{ raw := { siteId := "a", siteName := "A", pageViews := 1, wireTimestamp := 100 },
     now := 5, rid := 0 },
   { raw := { siteId := "a", siteName := "A", pageViews := 2, wireTimestamp := 50 },
     now := 7, rid := 1 },
   { raw := { siteId := "a", siteName := "A", pageViews := 3, wireTimestamp := 0 },
     now := 7, rid := 2 }]

/-! ### Window helper lemmas -/

theorem sliceLast_length (l : List α) (n : Nat) :
    (sliceLast l n).length = min l.length n := by
  simp [sliceLast, List.length_drop]
  omega

theorem siteStep_eq_dataUpdater : siteStep = dataUpdater := rfl

theorem dataUpdater_length_le (prev : List DataPoint) (e : DataPoint)
    (h : prev.length ≤ 201) : (dataUpdater prev e).length ≤ 201 := by
  unfold dataUpdater
  dsimp only
  split
  · exact h
  · rw [List.length_append, sliceLast_length]
    simp only [List.length_cons, List.length_nil, MAX_POINTS]
    omega

theorem siteStep_length_le (prev : List DataPoint) (e : DataPoint)
    (h : prev.length ≤ 201) : (siteStep prev e).length ≤ 201 := by
  rw [siteStep_eq_dataUpdater]
  exact dataUpdater_length_le prev e h

theorem mem_sitesUpdater {prev : List Site} {e : DataPoint} {s : Site}
    (h : s ∈ sitesUpdater prev e) :
    s ∈ prev ∨ (∃ s0 ∈ prev, s = { s0 with data := siteStep s0.data e }) ∨
      s = { siteId := e.siteId, siteName := e.siteName, data := [e] } := by
  induction prev with
  | nil =>
    simp only [sitesUpdater, List.mem_singleton] at h
    exact Or.inr (Or.inr h)
  | cons hd tl ih =>
    by_cases hc : hd.siteId = e.siteId
    · simp only [sitesUpdater, if_pos hc] at h
      rcases List.mem_cons.mp h with h1 | h1
      · exact Or.inr (Or.inl ⟨hd, List.mem_cons_self _ _, h1⟩)
      · exact Or.inl (List.mem_cons_of_mem _ h1)
    · simp only [sitesUpdater, if_neg hc] at h
      rcases List.mem_cons.mp h with h1 | h1
      · exact Or.inl (h1 ▸ List.mem_cons_self _ _)
      · rcases ih h1 with h2 | ⟨s0, hs0, h2⟩ | h2
        · exact Or.inl (List.mem_cons_of_mem _ h2)
        · exact Or.inr (Or.inl ⟨s0, List.mem_cons_of_mem _ hs0, h2⟩)
        · exact Or.inr (Or.inr h2)

theorem foldl_onmessage_inv (P : DashState → Prop)
    (hstep : ∀ st m, P st → P (onmessage st m)) :
    ∀ (msgs : List Msg) (st : DashState), P st → P (msgs.foldl onmessage st) := by
  intro msgs
  induction msgs with
  | nil => intro st h; exact h
  | cons m ms ih => intro st h; exact ih _ (hstep _ _ h)

theorem runDash_sites_len_le (msgs : List Msg) :
    ∀ s ∈ (runDash msgs).sites, s.data.length ≤ 201 := by
  refine foldl_onmessage_inv (fun st => ∀ s ∈ st.sites, s.data.length ≤ 201)
    ?_ msgs emptyDash ?_
  · intro st m h s hs
    unfold onmessage at hs
    dsimp only at hs
    rcases mem_sitesUpdater hs with h1 | ⟨s0, hs0, h1⟩ | h1
    · exact h s h1
    · subst h1
      exact siteStep_length_le _ _ (h s0 hs0)
    · subst h1
      simp
  · intro s hs
    simp [emptyDash] at hs

theorem runDash_data_len_le (msgs : List Msg) :
    (runDash msgs).data.length ≤ 201 := by
  refine foldl_onmessage_inv (fun st => st.data.length ≤ 201) ?_ msgs emptyDash ?_
  · intro st m h
    unfold onmessage
    dsimp only
    exact dataUpdater_length_le _ _ h
  · simp [emptyDash]

theorem siteStep_of_saturated_ne (prev : List DataPoint) (e : DataPoint)
    (hlen : prev.length = 201)
    (hid : ¬ prev.getLast?.map DataPoint.id = some e.id) :
    siteStep prev e = prev.tail ++ [e] := by
  unfold siteStep
  dsimp only
  rw [if_neg]
  · simp [sliceLast, hlen, MAX_POINTS, List.drop_one]
  · rintro ⟨-, h2⟩
    rw [List.getLast?_concat] at h2
    simp only [Option.map_some'] at h2
    exact hid h2

theorem siteStep_of_saturated_dup (prev : List DataPoint) (e : DataPoint)
    (hlen : prev.length = 201)
    (hid : prev.getLast?.map DataPoint.id = some e.id) :
    siteStep prev e = prev := by
  unfold siteStep
  dsimp only
  rw [if_pos]
  refine ⟨?_, ?_⟩
  · simp [List.length_append, sliceLast_length, hlen, MAX_POINTS]
  · rw [List.getLast?_concat]
    simpa using hid

/-! ### Characterization of a single-site run: the window is exactly the last
201 enriched events, so an evicted event leaves no trace -/

theorem sliceLast_of_le (l : List α) (n : Nat) (h : l.length ≤ n) :
    sliceLast l n = l := by
  simp [sliceLast, Nat.sub_eq_zero_of_le h]

theorem dashExt (σ σ' : DashState) (h1 : σ.data = σ'.data)
    (h2 : σ.sites = σ'.sites) : σ = σ' := by
  obtain ⟨a1, a2⟩ := σ
  obtain ⟨b1, b2⟩ := σ'
  dsimp only at h1 h2
  rw [h1, h2]

theorem dataUpdater_small (prev : List DataPoint) (e : DataPoint)
    (h : prev.length ≤ 200) : dataUpdater prev e = prev ++ [e] := by
  unfold dataUpdater
  dsimp only
  rw [sliceLast_of_le _ _ (by simpa [MAX_POINTS] using h)]
  rw [if_neg]
  rintro ⟨h1, -⟩
  simp at h1

theorem dataUpdater_slice (xs : List DataPoint) (e : DataPoint)
    (hid : ¬ xs.getLast?.map DataPoint.id = some e.id ∨ xs.length ≤ 200) :
    dataUpdater (sliceLast xs 201) e = sliceLast (xs ++ [e]) 201 := by
  by_cases hlen : xs.length ≤ 200
  · rw [sliceLast_of_le xs 201 (by omega), dataUpdater_small xs e hlen,
      sliceLast_of_le _ 201 (by simp; omega)]
  · have hplen : (sliceLast xs 201).length = 201 := by
      rw [sliceLast_length]; omega
    have hlast : (sliceLast xs 201).getLast? = xs.getLast? := by
      simp only [sliceLast, List.getLast?_drop]
      rw [if_neg (by omega)]
    have hid' : ¬ (sliceLast xs 201).getLast?.map DataPoint.id = some e.id := by
      rw [hlast]
      rcases hid with h | h
      · exact h
      · omega
    rw [← siteStep_eq_dataUpdater, siteStep_of_saturated_ne _ e hplen hid']
    simp only [sliceLast, ← List.drop_one, List.drop_drop, List.length_append,
      List.length_cons, List.length_nil]
    rw [List.drop_append_of_le_length (by omega)]
    congr 2
    omega

theorem foldl_data_eq :
    ∀ (msgs : List Msg) (st : DashState),
      (msgs.foldl onmessage st).data =
        msgs.foldl (fun d m => dataUpdater d (enrichMsg m)) st.data := by
  intro msgs
  induction msgs with
  | nil => intro st; rfl
  | cons m ms ih => intro st; exact ih (onmessage st m)

theorem foldl_dataUpdater_slice :
    ∀ (msgs : List Msg) (xs : List DataPoint),
      List.Chain' (fun a b => a.id ≠ b.id) (xs ++ msgs.map enrichMsg) →
      msgs.foldl (fun d m => dataUpdater d (enrichMsg m)) (sliceLast xs 201) =
        sliceLast (xs ++ msgs.map enrichMsg) 201 := by
  intro msgs
  induction msgs with
  | nil => intro xs _; simp
  | cons m ms ih =>
    intro xs h
    have hlast : ¬ xs.getLast?.map DataPoint.id = some (enrichMsg m).id ∨
        xs.length ≤ 200 := by
      cases hx : xs.getLast? with
      | none => left; simp [hx]
      | some x =>
        left
        have hmid := (List.chain'_append.mp h).2.2 x (by simp [hx]) (enrichMsg m)
          (by simp)
        simp only [hx, Option.map_some', Option.some.injEq]
        exact hmid
    have hstep := dataUpdater_slice xs (enrichMsg m) hlast
    have h' : List.Chain' (fun a b : DataPoint => a.id ≠ b.id)
        ((xs ++ [enrichMsg m]) ++ ms.map enrichMsg) := by
      simpa [List.append_assoc] using h
    calc (m :: ms).foldl (fun d m => dataUpdater d (enrichMsg m)) (sliceLast xs 201)
        = ms.foldl (fun d m => dataUpdater d (enrichMsg m))
            (dataUpdater (sliceLast xs 201) (enrichMsg m)) := rfl
      _ = ms.foldl (fun d m => dataUpdater d (enrichMsg m))
            (sliceLast (xs ++ [enrichMsg m]) 201) := by rw [hstep]
      _ = sliceLast ((xs ++ [enrichMsg m]) ++ ms.map enrichMsg) 201 :=
            ih (xs ++ [enrichMsg m]) h'
      _ = sliceLast (xs ++ (m :: ms).map enrichMsg) 201 := by
            simp [List.append_assoc]

theorem foldl_sites_single :
    ∀ (msgs : List Msg) (st : DashState) (sid name : String) (w : List DataPoint),
      st.sites = [{ siteId := sid, siteName := name, data := w }] →
      (∀ m ∈ msgs, m.raw.siteId = sid) →
      (msgs.foldl onmessage st).sites =
        [{ siteId := sid, siteName := name,
           data := msgs.foldl (fun d m => dataUpdater d (enrichMsg m)) w }] := by
  intro msgs
  induction msgs with
  | nil =>
    intro st sid name w hst _
    simpa using hst
  | cons m ms ih =>
    intro st sid name w hst hall
    have hm : m.raw.siteId = sid := hall m (List.mem_cons_self _ _)
    have h1 : (onmessage st m).sites =
        [{ siteId := sid, siteName := name, data := dataUpdater w (enrichMsg m) }] := by
      have h0 : (onmessage st m).sites = sitesUpdater st.sites (enrichMsg m) := rfl
      rw [h0, hst]
      simp only [sitesUpdater]
      rw [if_pos (show sid = (enrichMsg m).siteId from hm.symm)]
      rw [siteStep_eq_dataUpdater]
    exact ih (onmessage st m) sid name _ h1
      (fun m' hm' => hall m' (List.mem_cons_of_mem _ hm'))

theorem chain_ne_range' :
    ∀ (n s : Nat), List.Chain' (fun j k : Nat => j ≠ k) (List.range' s n) := by
  intro n
  induction n with
  | zero => intro s; simp
  | succ n ih =>
    intro s
    rw [List.range'_succ, List.chain'_cons']
    refine ⟨?_, ih (s + 1)⟩
    intro y hy
    rw [List.head?_range'] at hy
    by_cases hn : n = 0
    · rw [if_pos hn] at hy
      simp at hy
    · rw [if_neg hn] at hy
      have hys : s + 1 = y := by simpa using hy
      omega

theorem chain_ids_genMsg (m0 : Msg) (hm0 : m0.rid = 0) (n : Nat) :
    List.Chain' (fun a b : DataPoint => a.id ≠ b.id)
      ((m0 :: (List.range' 1 n).map genMsg).map enrichMsg) := by
  rw [List.map_cons, List.chain'_cons']
  constructor
  · intro y hy
    rw [List.map_map, List.head?_map, List.head?_range'] at hy
    by_cases hn : n = 0
    · rw [if_pos hn] at hy
      simp at hy
    · rw [if_neg hn] at hy
      have hyv : enrichMsg (genMsg 1) = y := by simpa using hy
      subst hyv
      show m0.rid ≠ (genMsg 1).rid
      rw [hm0]
      simp [genMsg]
  · rw [List.map_map, List.chain'_map]
    exact chain_ne_range' n 1

theorem runDash_char (m0 : Msg) (rest : List Msg)
    (hall : ∀ m ∈ rest, m.raw.siteId = m0.raw.siteId)
    (hids : List.Chain' (fun a b : DataPoint => a.id ≠ b.id)
      ((m0 :: rest).map enrichMsg)) :
    (runDash (m0 :: rest)).data = sliceLast ((m0 :: rest).map enrichMsg) 201 ∧
    (runDash (m0 :: rest)).sites =
      [{ siteId := m0.raw.siteId, siteName := m0.raw.siteName,
         data := sliceLast ((m0 :: rest).map enrichMsg) 201 }] := by
  have hids' : List.Chain' (fun a b : DataPoint => a.id ≠ b.id)
      ([enrichMsg m0] ++ rest.map enrichMsg) := by simpa using hids
  have hfold : rest.foldl (fun d m => dataUpdater d (enrichMsg m)) [enrichMsg m0]
      = sliceLast ([enrichMsg m0] ++ rest.map enrichMsg) 201 := by
    conv_lhs =>
      rw [show [enrichMsg m0] = sliceLast [enrichMsg m0] 201 from
        (sliceLast_of_le _ _ (by simp)).symm]
    exact foldl_dataUpdater_slice rest [enrichMsg m0] hids'
  constructor
  · show (rest.foldl onmessage (onmessage emptyDash m0)).data = _
    rw [foldl_data_eq]
    exact hfold
  · show (rest.foldl onmessage (onmessage emptyDash m0)).sites = _
    rw [foldl_sites_single rest (onmessage emptyDash m0) m0.raw.siteId
      m0.raw.siteName [enrichMsg m0] rfl hall, hfold]
    rfl

/-! ### Claim theorems: windowing -/

theorem c1msgs_all_site :
    ∀ m ∈ (List.range' 1 200).map genMsg, m.raw.siteId = (genMsg 0).raw.siteId := by
  intro m hm
  obtain ⟨j, -, rfl⟩ := List.mem_map.mp hm
  rfl

/-- C1 counterexample: after the 201 ingestions of c1msgs for one site, that
site's retained window holds 201 events, so the claimed invariant that the
window never holds more than 200 events is false on the code. -/
theorem C1_counterexample : ∃ s ∈ (runDash c1msgs).sites, 200 < s.data.length := by
  obtain ⟨-, hsites⟩ := runDash_char (genMsg 0) ((List.range' 1 200).map genMsg)
    c1msgs_all_site (chain_ids_genMsg (genMsg 0) rfl 200)
  show ∃ s ∈ (runDash (genMsg 0 :: (List.range' 1 200).map genMsg)).sites,
    200 < s.data.length
  rw [hsites]
  refine ⟨_, List.mem_singleton_self _, ?_⟩
  show 200 < (sliceLast ((genMsg 0 :: (List.range' 1 200).map genMsg).map enrichMsg) 201).length
  rw [sliceLast_length]
  simp [List.length_map, List.length_range']

/-- C1 (amended): for every sequence of ingested events, each site's retained
window holds at most 201 events (slice(-200) of the previous window followed
by an append), and once the window is saturated at 201 an ingestion either
leaves it unchanged (the tail-id short-circuit) or evicts exactly the oldest
element before appending (FIFO at capacity 201). -/
theorem C1_amended_window_le_201 :
    (∀ msgs : List Msg, ∀ s ∈ (runDash msgs).sites, s.data.length ≤ 201) ∧
    (∀ (prev : List DataPoint) (e : DataPoint), prev.length = 201 →
      siteStep prev e = prev ∨ siteStep prev e = prev.tail ++ [e]) := by
  refine ⟨runDash_sites_len_le, ?_⟩
  intro prev e hlen
  by_cases hid : prev.getLast?.map DataPoint.id = some e.id
  · exact Or.inl (siteStep_of_saturated_dup prev e hlen hid)
  · exact Or.inr (siteStep_of_saturated_ne prev e hlen hid)

/-- C1 amended witness at concrete inputs. -/
theorem C1_amended_witness :
    ((⟨"a", "A", [dp0]⟩ : Site) ∈ (runDash [c3m]).sites ∧
      (Site.mk "a" "A" [dp0]).data.length ≤ 201) ∧
    ((List.replicate 201 dp0).length = 201 ∧
      (siteStep (List.replicate 201 dp0) dpNew = List.replicate 201 dp0 ∨
        siteStep (List.replicate 201 dp0) dpNew =
          (List.replicate 201 dp0).tail ++ [dpNew])) :=
  ⟨⟨by decide, C1_amended_window_le_201.1 [c3m] _ (by decide)⟩,
    by simp, C1_amended_window_le_201.2 (List.replicate 201 dp0) dpNew (by simp)⟩

/-- C2 (amended): when a site's window is saturated at 201 and the incoming
event is not the tail duplicate, the oldest event is evicted and discarded
outright; the Site state has no baseline or baselineCount field, so nothing
records evicted events. -/
theorem C2_amended_evicted_discarded :
    ∀ (prev : List DataPoint) (e : DataPoint), prev.length = 201 →
      ¬ prev.getLast?.map DataPoint.id = some e.id →
      siteStep prev e = prev.tail ++ [e] :=
  siteStep_of_saturated_ne

/-- C2 amended witness at concrete inputs. -/
theorem C2_amended_witness :
    (List.replicate 201 dp0).length = 201 ∧
    ¬ (List.replicate 201 dp0).getLast?.map DataPoint.id = some dpNew.id ∧
    siteStep (List.replicate 201 dp0) dpNew =
      (List.replicate 201 dp0).tail ++ [dpNew] :=
  ⟨by simp, by simp [List.getLast?_replicate, dp0, dpNew],
    C2_amended_evicted_discarded (List.replicate 201 dp0) dpNew (by simp)
      (by simp [List.getLast?_replicate, dp0, dpNew])⟩

/-- C3 counterexample: ingesting the same enriched event (same synthetic id)
twice in immediate succession from the empty state is not a no-op: the site's
window grows from 1 to 2 and the global list grows to 2, because the
short-circuit also requires the window length to be unchanged, which below
saturation never holds. -/
theorem C3_counterexample :
    (runDash [c3m, c3m]).sites.map (fun s => s.data.length) = [2] ∧
    (runDash [c3m, c3m]).data.length = 2 := by
  decide

/-- C3 (amended): the tail-identity short-circuit fires only when the site's
window is already saturated at 201 events; in that state ingesting an event
whose id equals the current tail's id leaves the per-site window and the
global list unchanged, while below saturation the duplicate is appended. -/
theorem C3_amended_dedup_only_at_saturation :
    ∀ (prev : List DataPoint) (e : DataPoint), prev.length = 201 →
      prev.getLast?.map DataPoint.id = some e.id →
      siteStep prev e = prev ∧ dataUpdater prev e = prev := by
  intro prev e hlen hid
  refine ⟨siteStep_of_saturated_dup prev e hlen hid, ?_⟩
  rw [← siteStep_eq_dataUpdater]
  exact siteStep_of_saturated_dup prev e hlen hid

/-- C3 amended witness at concrete inputs. -/
theorem C3_amended_witness :
    (List.replicate 201 dp0).length = 201 ∧
    (List.replicate 201 dp0).getLast?.map DataPoint.id = some dupE.id ∧
    siteStep (List.replicate 201 dp0) dupE = List.replicate 201 dp0 ∧
    dataUpdater (List.replicate 201 dp0) dupE = List.replicate 201 dp0 :=
  ⟨by simp, by simp [List.getLast?_replicate, dp0, dupE],
    (C3_amended_dedup_only_at_saturation (List.replicate 201 dp0) dupE (by simp)
      (by simp [List.getLast?_replicate, dp0, dupE])).1,
    (C3_amended_dedup_only_at_saturation (List.replicate 201 dp0) dupE (by simp)
      (by simp [List.getLast?_replicate, dp0, dupE])).2⟩

/-- C9: for every sequence of received messages, each per-site series holds at
most MAX_POINTS + 1 = 201 events and the global data list never exceeds 201
entries; the bound 201 is tight, reached by c1msgs, so 201 and not 200 is the
invariant the code maintains. -/
theorem C9_bound_201 :
    (∀ msgs : List Msg, (runDash msgs).data.length ≤ 201) ∧
    (∀ msgs : List Msg, ∀ s ∈ (runDash msgs).sites, s.data.length ≤ 201) ∧
    (runDash c1msgs).data.length = 201 ∧
    (∃ s ∈ (runDash c1msgs).sites, s.data.length = 201) := by
  obtain ⟨hdata, hsites⟩ := runDash_char (genMsg 0) ((List.range' 1 200).map genMsg)
    c1msgs_all_site (chain_ids_genMsg (genMsg 0) rfl 200)
  refine ⟨runDash_data_len_le, runDash_sites_len_le, ?_, ?_⟩
  · show (runDash (genMsg 0 :: (List.range' 1 200).map genMsg)).data.length = 201
    rw [hdata, sliceLast_length]
    simp [List.length_map, List.length_range']
  · show ∃ s ∈ (runDash (genMsg 0 :: (List.range' 1 200).map genMsg)).sites,
      s.data.length = 201
    rw [hsites]
    refine ⟨_, List.mem_singleton_self _, ?_⟩
    show (sliceLast ((genMsg 0 :: (List.range' 1 200).map genMsg).map enrichMsg) 201).length = 201
    rw [sliceLast_length]
    simp [List.length_map, List.length_range']

/-- C2 counterexample: two 202-message delivery sequences that differ exactly
in the numeric fields of the event that gets evicted produce identical final
states, so no component of the state (in particular no baseline) folds in the
evicted event's numeric fields, and nothing equal to a baselineCount or to the
arithmetic mean of evicted values exists in the state. -/
theorem C2_counterexample :
    runDash (c2msgs 1000) = runDash (c2msgs 2000) ∧ c2msgs 1000 ≠ c2msgs 2000 := by
  constructor
  · have hall : ∀ v : Nat, ∀ m ∈ c2rest, m.raw.siteId = (c2first v).raw.siteId := by
      intro v m hm
      obtain ⟨j, -, rfl⟩ := List.mem_map.mp hm
      rfl
    have hids : ∀ v : Nat, List.Chain' (fun a b : DataPoint => a.id ≠ b.id)
        ((c2first v :: c2rest).map enrichMsg) :=
      fun v => chain_ids_genMsg (c2first v) rfl 201
    obtain ⟨hd1, hs1⟩ := runDash_char (c2first 1000) c2rest (hall 1000) (hids 1000)
    obtain ⟨hd2, hs2⟩ := runDash_char (c2first 2000) c2rest (hall 2000) (hids 2000)
    have hwin : ∀ v : Nat,
        sliceLast ((c2first v :: c2rest).map enrichMsg) 201 = c2rest.map enrichMsg := by
      intro v
      have hlen : (c2rest.map enrichMsg).length = 201 := by
        simp [c2rest, List.length_map, List.length_range']
      rw [List.map_cons]
      simp only [sliceLast, List.length_cons, hlen]
      norm_num
    refine dashExt _ _ ?_ ?_
    · show (runDash (c2first 1000 :: c2rest)).data = (runDash (c2first 2000 :: c2rest)).data
      rw [hd1, hd2, hwin, hwin]
    · show (runDash (c2first 1000 :: c2rest)).sites = (runDash (c2first 2000 :: c2rest)).sites
      rw [hs1, hs2, hwin, hwin]
      rfl
  · intro h
    have := congrArg (fun l : List Msg => (l.head?.map (fun m => m.raw.pageViews))) h
    simp [c2msgs, c2first] at this

/-- C9 witness at concrete inputs. -/
theorem C9_bound_201_witness :
    (runDash [c3m]).data.length ≤ 201 ∧
    (⟨"a", "A", [dp0]⟩ : Site) ∈ (runDash [c3m]).sites ∧
    (Site.mk "a" "A" [dp0]).data.length ≤ 201 :=
  ⟨C9_bound_201.1 [c3m], by decide, C9_bound_201.2.1 [c3m] _ (by decide)⟩

/-! ### Claim theorems: telemetry monitor -/

/-- C4: evaluation of the code at the claimed scenario. A ping sent at clock 0
records latencyStart = 0; the pong handler's guard is the JS truthiness of
that stamp, and 0 is falsy, so the pong at t = 250 is ignored: latencyMs stays
0, no alert is asserted, and the state is untouched — the code contradicts the
claimed latencyMs = 250 plus High WebSocket Latency alert. For a ping at any
nonzero clock (here 1, pong at 251) the claimed behaviour does hold, and a
pong with no pending ping is indeed a no-op. -/
theorem C4_ping_at_zero_pong_ignored :
    (monPong (pingTick monInit 0 true) 250).stats.latencyMs = 0 ∧
    (monPong (pingTick monInit 0 true) 250).stats.alerts = [] ∧
    monPong (pingTick monInit 0 true) 250 = pingTick monInit 0 true ∧
    (monPong (pingTick monInit 1 true) 251).stats.latencyMs = 250 ∧
    (monPong (pingTick monInit 1 true) 251).stats.alerts = [highLatencyAlert] ∧
    (∀ s : PerformanceStats,
      monPong { stats := s, latencyStart := none } 250 =
        { stats := s, latencyStart := none }) := by
  refine ⟨rfl, rfl, rfl, by decide, by decide, fun s => rfl⟩

/-- C5 counterexample: from a state whose alerts hold the active High Memory
Usage alert (and whose memoryUsedMB is still above 400), the frame-cadence
sampler's write with fps = 60 leaves alerts empty, and with fps = 20 leaves
only the FPS alert: the fps write does not retain the other samplers'
currently active alert categories, refuting the claim that every write is a
field-scoped merge retaining all simultaneously-active alerts. -/
theorem C5_counterexample :
    highMemAlert ∈ c5prev.alerts ∧ 400 < c5prev.memoryUsedMB ∧
    (fpsUpdate c5prev 60).alerts = [] ∧
    (fpsUpdate c5prev 20).alerts = [lowFPSAlert] := by
  decide

/-- C5 (amended): every write preserves the other samplers' numeric fields
(the spread keeps fps, memoryUsedMB, memoryTotalMB, latencyMs as appropriate),
and the memory and latency writers keep other categories' active alerts
through their filters, but the FPS writer rebuilds the alert list from scratch
with only its own alert, discarding any other active alert. -/
theorem C5_amended_field_scoped :
    (∀ (prev : PerformanceStats) (f : Nat),
      (fpsUpdate prev f).memoryUsedMB = prev.memoryUsedMB ∧
      (fpsUpdate prev f).memoryTotalMB = prev.memoryTotalMB ∧
      (fpsUpdate prev f).latencyMs = prev.latencyMs) ∧
    (∀ (prev : PerformanceStats) (u t : Nat),
      (memUpdate prev u t).fps = prev.fps ∧
      (memUpdate prev u t).latencyMs = prev.latencyMs) ∧
    (∀ (st : MonitorState) (now : Int),
      (monPong st now).stats.fps = st.stats.fps ∧
      (monPong st now).stats.memoryUsedMB = st.stats.memoryUsedMB ∧
      (monPong st now).stats.memoryTotalMB = st.stats.memoryTotalMB) ∧
    (∀ (prev : PerformanceStats) (u t : Nat) (a : String), a ∈ prev.alerts →
      jsIncludes a "Memory" = false → a ∈ (memUpdate prev u t).alerts) ∧
    (∀ (st : MonitorState) (now : Int) (a : String), a ∈ st.stats.alerts →
      jsIncludes a "Latency" = false → a ∈ (monPong st now).stats.alerts) ∧
    (∀ (prev : PerformanceStats) (f : Nat),
      (fpsUpdate prev f).alerts = if f < 30 then [lowFPSAlert] else []) := by
  refine ⟨fun prev f => ⟨rfl, rfl, rfl⟩, fun prev u t => ⟨rfl, rfl⟩, ?_, ?_, ?_, fun prev f => rfl⟩
  · rintro ⟨stats, _ | t⟩ now
    · exact ⟨rfl, rfl, rfl⟩
    · by_cases ht : t = 0 <;> simp [monPong, ht]
  · intro prev u t a ha hm
    refine List.mem_append_left _ (List.mem_filter.mpr ⟨ha, ?_⟩)
    simp [hm]
  · rintro ⟨stats, _ | t⟩ now a ha hl
    · exact ha
    · by_cases ht : t = 0
      · simpa [monPong, ht] using ha
      · simp only [monPong, ht, if_neg ht]
        refine List.mem_append_left _ (List.mem_filter.mpr ⟨ha, ?_⟩)
        simp [hl]

/-- C5 amended witness at concrete inputs. -/
theorem C5_amended_witness :
    (lowFPSAlert ∈ c5w.alerts ∧ jsIncludes lowFPSAlert "Memory" = false ∧
      lowFPSAlert ∈ (memUpdate c5w 0 0).alerts) ∧
    (jsIncludes lowFPSAlert "Latency" = false ∧
      lowFPSAlert ∈ (monPong ⟨c5w, some 1⟩ 100).stats.alerts) :=
  ⟨⟨by decide, by decide,
      C5_amended_field_scoped.2.2.2.1 c5w 0 0 lowFPSAlert (by decide) (by decide)⟩,
    by decide,
    C5_amended_field_scoped.2.2.2.2.1 ⟨c5w, some 1⟩ 100 lowFPSAlert (by decide) (by decide)⟩

/-- C6 counterexample: a memory sample of 419430401 bytes (unrounded about
400.0000009 MB) asserts High Memory Usage while the reported memoryUsedMB is
exactly 400, so the alert is not present iff memoryUsedMB > 400: the alert
condition reads the unrounded value, not the rounded field. -/
theorem C6_counterexample :
    highMemAlert ∈ c6mem.alerts ∧ c6mem.memoryUsedMB = 400 := by
  decide

/-- C6 (amended): each alert category is re-evaluated only by its own
sampler's write: at an fps write, Low FPS is present iff fps < 30 (and other
categories are dropped); at a memory write, High Memory Usage is present iff
the unrounded used bytes exceed 400 MB (usedBytes > 419430400), not iff the
rounded memoryUsedMB exceeds 400; at a pong evaluation with a truthy pending
stamp, High WebSocket Latency is present iff the computed latency exceeds
200; and the fps readings 29, 31, 25 yield Low FPS present, absent, present
at the corresponding evaluations. -/
theorem C6_amended_alert_conditions :
    (∀ (prev : PerformanceStats) (f : Nat),
      lowFPSAlert ∈ (fpsUpdate prev f).alerts ↔ f < 30) ∧
    (∀ (prev : PerformanceStats) (u t : Nat),
      highMemAlert ∈ (memUpdate prev u t).alerts ↔ 419430400 < u) ∧
    (∀ (s : PerformanceStats) (t now : Int), t ≠ 0 →
      (monPong ⟨s, some t⟩ now).stats.latencyMs = now - t ∧
      (highLatencyAlert ∈ (monPong ⟨s, some t⟩ now).stats.alerts ↔ 200 < now - t)) ∧
    (lowFPSAlert ∈ (fpsUpdate initialStats 29).alerts ∧
      lowFPSAlert ∉ (fpsUpdate (fpsUpdate initialStats 29) 31).alerts ∧
      lowFPSAlert ∈ (fpsUpdate (fpsUpdate (fpsUpdate initialStats 29) 31) 25).alerts) := by
  have hmem : jsIncludes highMemAlert "Memory" = true := by decide
  have hlat : jsIncludes highLatencyAlert "Latency" = true := by decide
  refine ⟨?_, ?_, ?_, by decide⟩
  · intro prev f
    by_cases hf : f < 30 <;> simp [fpsUpdate, hf]
  · intro prev u t
    constructor
    · intro hin
      rcases List.mem_append.mp hin with hin | hin
      · have := (List.mem_filter.mp hin).2
        simp [hmem] at this
      · by_cases hu : 419430400 < u
        · exact hu
        · simp [hu] at hin
    · intro hu
      refine List.mem_append_right _ ?_
      simp [hu]
  · intro s t now ht
    refine ⟨by simp [monPong, ht], ?_⟩
    simp only [monPong, if_neg ht]
    constructor
    · intro hin
      rcases List.mem_append.mp hin with hin | hin
      · have := (List.mem_filter.mp hin).2
        simp [hlat] at this
      · by_cases hl : 200 < now - t
        · exact hl
        · simp [hl] at hin
    · intro hl
      refine List.mem_append_right _ ?_
      simp [hl]

/-- C6 amended witness at concrete inputs. -/
theorem C6_amended_witness :
    ((1 : Int) ≠ 0) ∧
    (monPong ⟨initialStats, some 1⟩ 300).stats.latencyMs = 300 - 1 ∧
    highLatencyAlert ∈ (monPong ⟨initialStats, some 1⟩ 300).stats.alerts :=
  ⟨by decide, (C6_amended_alert_conditions.2.2.1 initialStats 1 300 (by decide)).1,
    ((C6_amended_alert_conditions.2.2.1 initialStats 1 300 (by decide)).2).mpr (by decide)⟩

/-! ### Claim theorems: connection manager -/

theorem foldl_connStep_inv (P : ConnState → Prop)
    (hstep : ∀ st ev, P st → P (connStep st ev)) :
    ∀ (evs : List ConnEvent) (st : ConnState), P st → P (evs.foldl connStep st) := by
  intro evs
  induction evs with
  | nil => intro st h; exact h
  | cons ev evs ih => intro st h; exact ih _ (hstep _ _ h)

theorem connStep_inv (st : ConnState) (ev : ConnEvent)
    (h : (st.errored = false → st.timers = []) ∧ st.timers.length ≤ 1) :
    ((connStep st ev).errored = false → (connStep st ev).timers = []) ∧
    (connStep st ev).timers.length ≤ 1 := by
  obtain ⟨h1, h2⟩ := h
  cases ev with
  | errorEv now =>
    simp only [connStep]
    by_cases he : st.errored = true
    · rw [if_pos he]
      exact ⟨h1, h2⟩
    · rw [if_neg he]
      have hnil : st.timers = [] := h1 (by simpa using he)
      simp [hnil]
  | closeEv now => exact ⟨h1, h2⟩
  | timerFire =>
    cases ht : st.timers with
    | nil =>
      have hstep : connStep st ConnEvent.timerFire = st := by
        simp [connStep, ht]
      rw [hstep]
      exact ⟨h1, h2⟩
    | cons x rest =>
      have hr : rest = [] := by
        rw [ht] at h2
        simp only [List.length_cons] at h2
        exact List.length_eq_zero.mp (by omega)
      have hstep : connStep st ConnEvent.timerFire =
          { timers := rest, errored := false, attempts := st.attempts + 1 } := by
        simp [connStep, ht]
      rw [hstep, hr]
      exact ⟨fun _ => rfl, by simp⟩

theorem runConn_timers_le_one (evs : List ConnEvent) :
    (runConn evs).timers.length ≤ 1 :=
  (foldl_connStep_inv
    (fun st => (st.errored = false → st.timers = []) ∧ st.timers.length ≤ 1)
    connStep_inv evs connInit ⟨fun _ => rfl, by simp [connInit]⟩).2

/-- C7: at every reachable connection-manager state at most one reconnect
timer is live; an abnormal close (an error event followed by a close event)
schedules exactly one reconnect timer, due exactly 3000 ms after the error,
and its firing performs exactly one reconnect attempt; a second error/close
pair before the timer fires schedules nothing further; and after a fired
reconnect a new error again yields a single live timer. -/
theorem C7_single_reconnect_timer :
    (∀ evs : List ConnEvent, (runConn evs).timers.length ≤ 1) ∧
    (∀ t : Nat,
      (runConn [ConnEvent.errorEv t, ConnEvent.closeEv t]).timers = [t + 3000] ∧
      (runConn [ConnEvent.errorEv t, ConnEvent.closeEv t]).attempts = 0) ∧
    (∀ t : Nat,
      (runConn [ConnEvent.errorEv t, ConnEvent.closeEv t, ConnEvent.timerFire]).timers = [] ∧
      (runConn [ConnEvent.errorEv t, ConnEvent.closeEv t, ConnEvent.timerFire]).attempts = 1) ∧
    (∀ t u : Nat,
      (runConn [ConnEvent.errorEv t, ConnEvent.closeEv t,
        ConnEvent.errorEv u, ConnEvent.closeEv u]).timers = [t + 3000]) ∧
    (∀ t u : Nat,
      (runConn [ConnEvent.errorEv t, ConnEvent.timerFire,
        ConnEvent.errorEv u]).timers = [u + 3000]) :=
  ⟨runConn_timers_le_one, fun _ => ⟨rfl, rfl⟩, fun _ => ⟨rfl, rfl⟩,
    fun _ _ => rfl, fun _ _ => rfl⟩

/-! ### Claim theorems: malformed payloads -/

/-- C8: evaluation of the handlers on a malformed payload. The Dashboard and
useWebSocket onmessage handlers parse unguarded, so the JSON.parse exception
escapes the handler (Except.error): the message consumer does crash, contrary
to the claim. The monitor's handler wraps its body in try/catch and is total:
the offending message is discarded and the state is unchanged. On well-formed
payloads the Dashboard handler processes normally. -/
theorem C8_malformed_crash_vs_catch :
    (∀ (st : DashState) (now rid : Nat) (payload : String),
      dashOnData st (DataWire.malformed payload) now rid = Except.error payload) ∧
    (∀ (prev : List RawPoint) (payload : String),
      useWebSocketOnMessage prev (DataWire.malformed payload) = Except.error payload) ∧
    (∀ (st : MonitorState) (payload : String),
      monitorOnMessage st (MonWire.malformedMsg payload) = st) ∧
    (∀ (st : DashState) (raw : RawPoint) (now rid : Nat),
      dashOnData st (DataWire.point raw) now rid =
        Except.ok (onmessage st { raw := raw, now := now, rid := rid })) :=
  ⟨fun _ _ _ _ => rfl, fun _ _ => rfl, fun _ _ => rfl, fun _ _ _ _ => rfl⟩

/-! ### Claim theorems: timestamp rewriting -/

theorem chain_ts_siteStep (c now : Nat) (d : List DataPoint) (e : DataPoint)
    (hchain : List.Chain' (· ≤ ·) (d.map DataPoint.timestamp))
    (hbound : ∀ x ∈ d, x.timestamp ≤ c) (hc : c ≤ now) (he : e.timestamp = now) :
    List.Chain' (· ≤ ·) ((siteStep d e).map DataPoint.timestamp) ∧
    ∀ x ∈ siteStep d e, x.timestamp ≤ now := by
  unfold siteStep
  dsimp only
  split
  · exact ⟨hchain, fun x hx => le_trans (hbound x hx) hc⟩
  · constructor
    · rw [List.map_append, List.chain'_append]
      refine ⟨?_, ?_, ?_⟩
      · simp only [sliceLast, List.map_drop]
        exact hchain.suffix (List.drop_suffix _ _)
      · simp
      · intro x hx y hy
        simp only [List.map_cons, List.map_nil, List.head?_cons, Option.mem_def,
          Option.some.injEq] at hy
        have hx' := List.mem_of_mem_getLast? hx
        obtain ⟨z, hz, rfl⟩ := List.mem_map.mp hx'
        have hzd : z ∈ d := List.mem_of_mem_drop (by simpa [sliceLast] using hz)
        rw [← hy, he]
        exact le_trans (hbound z hzd) hc
    · intro x hx
      rcases List.mem_append.mp hx with hx | hx
      · have hxd : x ∈ d := List.mem_of_mem_drop (by simpa [sliceLast] using hx)
        exact le_trans (hbound x hxd) hc
      · simp only [List.mem_singleton] at hx
        subst hx
        rw [he]

theorem tsOK_sitesUpdater (c now : Nat) (ss : List Site) (e : DataPoint)
    (h : ∀ s ∈ ss, List.Chain' (· ≤ ·) (s.data.map DataPoint.timestamp) ∧
      ∀ x ∈ s.data, x.timestamp ≤ c)
    (hc : c ≤ now) (he : e.timestamp = now) :
    ∀ s ∈ sitesUpdater ss e,
      List.Chain' (· ≤ ·) (s.data.map DataPoint.timestamp) ∧
      ∀ x ∈ s.data, x.timestamp ≤ now := by
  intro s hs
  rcases mem_sitesUpdater hs with h1 | ⟨s0, hs0, rfl⟩ | rfl
  · obtain ⟨hch, hb⟩ := h s h1
    exact ⟨hch, fun x hx => le_trans (hb x hx) hc⟩
  · obtain ⟨hch, hb⟩ := h s0 hs0
    exact chain_ts_siteStep c now s0.data e hch hb hc he
  · refine ⟨by simp, ?_⟩
    intro x hx
    simp only [List.mem_singleton] at hx
    subst hx
    rw [he]

theorem tsOK_run :
    ∀ (msgs : List Msg) (st : DashState) (c : Nat),
      (∀ s ∈ st.sites, List.Chain' (· ≤ ·) (s.data.map DataPoint.timestamp) ∧
        ∀ x ∈ s.data, x.timestamp ≤ c) →
      List.Chain' (· ≤ ·) (c :: msgs.map Msg.now) →
      ∀ s ∈ (msgs.foldl onmessage st).sites,
        List.Chain' (· ≤ ·) (s.data.map DataPoint.timestamp) := by
  intro msgs
  induction msgs with
  | nil => intro st c h _ s hs; exact (h s hs).1
  | cons m ms ih =>
    intro st c h hchain s hs
    rw [List.map_cons, List.chain'_cons] at hchain
    obtain ⟨hcm, hchain'⟩ := hchain
    refine ih (onmessage st m) m.now ?_ hchain' s hs
    intro s' hs'
    unfold onmessage at hs'
    dsimp only at hs'
    exact tsOK_sitesUpdater c m.now st.sites (enrich m.raw m.now m.rid) h hcm rfl s' hs'

/-- C10: the enrichment discards the wire timestamp (two payloads differing
only in it enrich identically) and stamps the local receipt clock and the
fresh id; consequently, whenever the receipt clocks of a delivery sequence
are non-decreasing (Date.now is monotone), the timestamps stored in every
per-site window are non-decreasing in insertion order, regardless of the
wire timestamps. -/
theorem C10_timestamps_monotone :
    (∀ (raw : RawPoint) (t : Int) (now rid : Nat),
      enrich { raw with wireTimestamp := t } now rid = enrich raw now rid) ∧
    (∀ (raw : RawPoint) (now rid : Nat),
      (enrich raw now rid).timestamp = now ∧ (enrich raw now rid).id = rid) ∧
    (∀ msgs : List Msg, List.Chain' (· ≤ ·) (msgs.map Msg.now) →
      ∀ s ∈ (runDash msgs).sites,
        List.Chain' (· ≤ ·) (s.data.map DataPoint.timestamp)) := by
  refine ⟨fun raw t now rid => rfl, fun raw now rid => ⟨rfl, rfl⟩, ?_⟩
  intro msgs hchain s hs
  refine tsOK_run msgs emptyDash 0 ?_ ?_ s hs
  · intro s' hs'
    simp [emptyDash] at hs'
  · rw [List.chain'_cons']
    exact ⟨fun y _ => Nat.zero_le y, hchain⟩

/-- C10 witness at concrete inputs: wire timestamps 100, 50, 0 arrive with
receipt clocks 5, 7, 7, and the stored window carries 5, 7, 7. -/
theorem C10_timestamps_monotone_witness :
    List.Chain' (· ≤ ·) (c10msgs.map Msg.now) ∧
    (Site.mk "a" "A" [⟨"a", "A", 1, 5, 0⟩, ⟨"a", "A", 2, 7, 1⟩, ⟨"a", "A", 3, 7, 2⟩]
      ∈ (runDash c10msgs).sites) ∧
    List.Chain' (· ≤ ·)
      ((Site.mk "a" "A" [⟨"a", "A", 1, 5, 0⟩, ⟨"a", "A", 2, 7, 1⟩,
        ⟨"a", "A", 3, 7, 2⟩]).data.map DataPoint.timestamp) :=
  ⟨by norm_num [c10msgs, List.chain'_cons], by decide,
    C10_timestamps_monotone.2.2 c10msgs
      (by norm_num [c10msgs, List.chain'_cons]) _ (by decide)⟩

end Crisis
